import Mathlib

/-!
Verification of the dq_ai data-quality audit engine.

The Python source (src/run_audit.py, src/app.py) is shallowly embedded:
a tabular dataset is a list of named, typed columns of cells; each check
function is translated into a Lean function from the dataset to a list of
findings (`CheckResult`); the scorer and the enrichment stage of app.py
are translated as well.  Machine floats are modelled by exact rationals.
External parsers that the code calls (pandas' date parser used by
`pd.to_datetime` on strings, and the numeric string parser used by
`pd.to_numeric`) are taken as parameters, since their behaviour is not
part of this repository.
-/

attribute [local semireducible] Rat.add Rat.sub Rat.mul Rat.inv

/-- A single cell of a column: either missing (NaN/None), or an integer,
float, string or datetime value. -/
inductive Cell where
  | na
  | int (i : ℤ)
  | float (q : ℚ)
  | str (s : String)
  | datetime (t : ℤ)
  deriving DecidableEq

/-- The pandas dtype of a column, as far as the checks inspect it. -/
inductive DType where
  | int64
  | float64
  | object
  | datetime64
  | category
  deriving DecidableEq

/-- A loosely-typed value stored in a finding's issue record
(the Python code uses plain dict/list payloads). -/
inductive IVal where
  | int (i : ℤ)
  | rat (q : ℚ)
  | str (s : String)
  | nullv
  | list (l : List IVal)
  | record (r : List (String × IVal))

/-- An issue record: a Python dict with string keys, in insertion order. -/
abbrev IssueRec := List (String × IVal)

/-- One column of a DataFrame. -/
structure Column where
  name : String
  dtype : DType
  cells : List Cell

/-- A pandas DataFrame: an ordered sequence of named typed columns. -/
structure DataFrame where
  cols : List Column

/-- `len(df)`: the row count (all columns have it in a well-formed frame). -/
def nRows (df : DataFrame) : ℕ :=
  match df.cols with
  | [] => 0
  | c :: _ => c.cells.length

/-- `df.columns`. -/
def colNames (df : DataFrame) : List String :=
  df.cols.map (fun c => c.name)

/-- `df[c]`: the first column with the given name. -/
def findCol (df : DataFrame) (c : String) : Option Column :=
  df.cols.find? (fun col => col.name == c)

/-- The dataclass `CheckResult` of run_audit.py. -/
structure CheckResult where
  name : String
  severity : String
  issues : List IssueRec
  impact : ℚ

/-- `SEVERITY_WEIGHTS.get(severity, 1)`: the dict
`{"critical": 3, "major": 2, "minor": 1}` with default 1. -/
def severityWeight (s : String) : ℚ :=
  if s = "critical" then 3 else if s = "major" then 2 else if s = "minor" then 1 else 1

/-- `norm(x, cap) = max(0.0, min(1.0, x / cap))`. -/
def norm (x cap : ℚ) : ℚ :=
  max 0 (min 1 (x / cap))

/-- Round a rational to the nearest integer, ties to even
(the behaviour of Python's `round` on exact values). -/
def roundHalfEven (x : ℚ) : ℤ :=
  if x - (Int.floor x : ℚ) < 1/2 then Int.floor x
  else if (1 : ℚ)/2 < x - (Int.floor x : ℚ) then Int.floor x + 1
  else if Int.floor x % 2 = 0 then Int.floor x else Int.floor x + 1

/-- `round(x, 1)`: round to one decimal place, ties to even. -/
def round1 (x : ℚ) : ℚ :=
  (roundHalfEven (10 * x) : ℚ) / 10

/-- One finding's contribution to the penalty in `compute_score`:
`SEVERITY_WEIGHTS.get(r.severity, 1) * r.impact * 10`. -/
def findingPenalty (r : CheckResult) : ℚ :=
  severityWeight r.severity * r.impact * 10

/-- `compute_score` of run_audit.py:
`round(max(0.0, 100.0 - penalty), 1)`. -/
def compute_score (results : List CheckResult) : ℚ :=
  round1 (max 0 (100 - (results.map findingPenalty).sum))

/-- Modelled from the spec's words (claim C1): the severity weight table
`critical=3, major=2, minor=1`. -/
def specSeverityWeight (s : String) : ℚ :=
  if s = "critical" then 3 else if s = "major" then 2 else 1

/-- Modelled from the spec's words (claim C1):
`clamp(x, lo, hi)`. -/
def clampSpec (lo hi x : ℚ) : ℚ :=
  min hi (max lo x)

/-- Modelled from the spec's words (claim C1):
`round(clamp(100 − Σ severity_weight × impact × 10, 0, 100), 1)`. -/
def specScore (results : List CheckResult) : ℚ :=
  round1 (clampSpec 0 100
    (100 - (results.map (fun r => specSeverityWeight r.severity * r.impact * 10)).sum))

/-- A baseline schema object: expected columns, expected dtype strings,
optional primary key. -/
structure Baseline where
  columns : List String
  dtypes : List (String × String)
  primary_key : Option (List String)

/-- `str(df[c].dtype)` for the dtypes the model covers. -/
def dtypeStr : DType → String
  | .int64 => "int64"
  | .float64 => "float64"
  | .object => "object"
  | .datetime64 => "datetime64[ns]"
  | .category => "category"

/-- `is_numeric_dtype`. -/
def isNumericDtype : DType → Bool
  | .int64 => true
  | .float64 => true
  | _ => false

/-- `is_string_dtype`. -/
def isStringDtype : DType → Bool
  | .object => true
  | _ => false

/-- `is_datetime64_any_dtype`. -/
def isDatetimeDtype : DType → Bool
  | .datetime64 => true
  | _ => false

/-- `pd.isna` on one cell. -/
def Cell.isna : Cell → Bool
  | .na => true
  | _ => false

/-- A cell as it appears in a serialized issue payload. -/
def cellToIVal : Cell → IVal
  | .na => .nullv
  | .int i => .int i
  | .float q => .rat q
  | .str s => .str s
  | .datetime t => .int t

/-- `astype(str)` on one cell (pandas renders NaN as the string "nan");
the rendering of non-string cells is a fixed injective spelling. -/
def cellStr : Cell → String
  | .na => "nan"
  | .str s => s
  | .int i => toString i
  | .float q => toString q.num ++ "/" ++ toString q.den
  | .datetime t => toString t

/-- The rows of the frame: row i is the list of cells across columns. -/
def dfRows (df : DataFrame) : List (List Cell) :=
  (List.range (nRows df)).map (fun i => df.cols.map (fun col => col.cells.getD i Cell.na))

/-- `duplicated(keep="first")` at position i: some earlier row is equal. -/
def dupFirstB (rows : List (List Cell)) (i : ℕ) : Bool :=
  (List.range i).any (fun j => decide (rows.getD j [] = rows.getD i []))

/-- `duplicated(keep=False)` at position i: some other row is equal. -/
def dupAnyB (rows : List (List Cell)) (i : ℕ) : Bool :=
  (List.range rows.length).any (fun j => (!(j == i)) && decide (rows.getD j [] = rows.getD i []))

/-- `df.duplicated().sum()`: the number of non-first duplicate rows. -/
def dupFirstCount (rows : List (List Cell)) : ℕ :=
  (List.range rows.length).countP (dupFirstB rows)

/-- The index list of `df[df.duplicated(keep=False)]`. -/
def dupAnyIdx (rows : List (List Cell)) : List ℕ :=
  (List.range rows.length).filter (dupAnyB rows)

/-- `check_schema` of run_audit.py. -/
def check_schema (df : DataFrame) (baseline : Option Baseline) : List CheckResult :=
  match baseline with
  | none => []
  | some b =>
    let expected := b.columns.dedup
    let actual := (colNames df).dedup
    let missing := expected.filter (fun c => decide (c ∉ actual))
    let added := actual.filter (fun c => decide (c ∉ expected))
    let part₁ :=
      if missing.isEmpty then [] else
        [⟨"Missing Columns", "critical", [[("missing", IVal.list (missing.map IVal.str))]],
          norm (missing.length : ℚ) 10⟩]
    let part₂ :=
      if added.isEmpty then [] else
        [⟨"Unexpected Columns", "major", [[("new", IVal.list (added.map IVal.str))]],
          norm (added.length : ℚ) 10⟩]
    let drift := b.dtypes.filterMap (fun p =>
      match findCol df p.1 with
      | some col =>
        if dtypeStr col.dtype ≠ p.2 then
          some [("column", IVal.str p.1), ("expected", IVal.str p.2),
                ("actual", IVal.str (dtypeStr col.dtype))]
        else none
      | none => none)
    let part₃ :=
      if drift.isEmpty then [] else
        [⟨"Dtype Drift", "major", drift, norm (drift.length : ℚ) 15⟩]
    part₁ ++ part₂ ++ part₃

/-- The projection of row i onto the primary-key columns, in key order. -/
def keyRow (df : DataFrame) (pk : List String) (i : ℕ) : List Cell :=
  pk.map (fun k =>
    match findCol df k with
    | some col => col.cells.getD i Cell.na
    | none => Cell.na)

/-- All rows projected onto the primary-key columns. -/
def pkRows (df : DataFrame) (pk : List String) : List (List Cell) :=
  (List.range (nRows df)).map (keyRow df pk)

/-- `check_primary_key` of run_audit.py. -/
def check_primary_key (df : DataFrame) (pk : List String) : List CheckResult :=
  match pk with
  | [] => []
  | _ :: _ =>
    let krows := pkRows df pk
    let dupes := dupFirstCount krows
    if 0 < dupes then
      let ex := ((dupAnyIdx krows).take 5).map (fun i =>
        IVal.record ((pk.zip (krows.getD i [])).map (fun p => (p.1, cellToIVal p.2))))
      [⟨"Primary Key Uniqueness", "critical",
        [[("duplicates", IVal.int (dupes : ℤ)), ("examples", IVal.list ex)]],
        norm (dupes : ℚ) (max 10 ((nRows df : ℚ) * (2/100)))⟩]
    else []

/-- The per-column null count `df[c].isna().sum()`. -/
def missingCount (col : Column) : ℕ :=
  col.cells.countP Cell.isna

/-- `check_missing_duplicates_types` of run_audit.py. -/
def check_missing_duplicates_types (df : DataFrame) : List CheckResult :=
  let missCols := df.cols.filter (fun col => decide (0 < missingCount col))
  let part₁ :=
    if missCols.isEmpty then [] else
      [⟨"Missing Values", "major",
        missCols.map (fun col =>
          [("column", IVal.str col.name), ("missing", IVal.int (missingCount col : ℤ))]),
        norm ((missCols.map missingCount).sum : ℚ) (max 10 ((nRows df : ℚ) * (5/100)))⟩]
  let dups := dupFirstCount (dfRows df)
  let part₂ :=
    if 0 < dups then
      [⟨"Duplicate Rows", "major", [[("duplicates", IVal.int (dups : ℤ))]],
        norm (dups : ℚ) (max 10 ((nRows df : ℚ) * (3/100)))⟩]
    else []
  part₁ ++ part₂

/-- Insert into a ≤-sorted list, keeping it sorted. -/
def insertLe (x : ℚ) : List ℚ → List ℚ
  | [] => [x]
  | y :: ys => if x ≤ y then x :: y :: ys else y :: insertLe x ys

/-- Sort ascending (np.percentile sorts its input). -/
def sortQ : List ℚ → List ℚ
  | [] => []
  | x :: xs => insertLe x (sortQ xs)

/-- `np.percentile(s, p)` with the default linear interpolation. -/
def percentile (l : List ℚ) (p : ℚ) : ℚ :=
  let s := sortQ l
  let n := s.length
  if n = 0 then 0
  else
    let pos := ((n : ℚ) - 1) * p / 100
    let i := (Int.floor pos).toNat
    let frac := pos - (Int.floor pos : ℚ)
    let a := s.getD i 0
    let b := s.getD (min (i + 1) (n - 1)) 0
    a + frac * (b - a)

/-- `pd.to_numeric(·, errors="coerce")` on one cell; `pnum` is pandas'
numeric parser for strings (external to this repository). -/
def cellToNum (pnum : String → Option ℚ) : Cell → Option ℚ
  | .na => none
  | .int i => some (i : ℚ)
  | .float q => some q
  | .str s => pnum s
  | .datetime t => some (t : ℚ)

/-- The loop body of `check_outliers_iqr` for one column. -/
def outlierFinding (pnum : String → Option ℚ) (col : Column) : Option CheckResult :=
  if isNumericDtype col.dtype then
    let s := col.cells.filterMap (cellToNum pnum)
    if s.length < 10 then none
    else
      let q1 := percentile s 25
      let q3 := percentile s 75
      let iqr := max (q3 - q1) (1/1000000000)
      let lo := q1 - 3/2 * iqr
      let hi := q3 + 3/2 * iqr
      let cnt := s.countP (fun x => decide (x < lo) || decide (hi < x))
      if 0 < cnt then
        some ⟨"IQR Outliers: " ++ col.name, "major",
          [[("count", IVal.int (cnt : ℤ)), ("lo", IVal.rat lo), ("hi", IVal.rat hi)]],
          norm (cnt : ℚ) (max 10 ((s.length : ℚ) * (5/100)))⟩
      else none
  else none

/-- `check_outliers_iqr` of run_audit.py. -/
def check_outliers_iqr (pnum : String → Option ℚ) (df : DataFrame) : List CheckResult :=
  df.cols.filterMap (outlierFinding pnum)

/-- Add one observation of value v to a tally kept in first-seen order. -/
def bump (v : String) : List (String × ℕ) → List (String × ℕ)
  | [] => [(v, 1)]
  | (w, k) :: rest => if w = v then (w, k + 1) :: rest else (w, k) :: bump v rest

/-- Count occurrences of each distinct value, first-seen order. -/
def tally (l : List String) : List (String × ℕ) :=
  l.foldl (fun acc v => bump v acc) []

/-- Insertion step for sorting tallies by count, descending. -/
def insertByCount (x : String × ℕ) : List (String × ℕ) → List (String × ℕ)
  | [] => [x]
  | y :: ys => if y.2 ≤ x.2 then x :: y :: ys else y :: insertByCount x ys

/-- Sort tallies by count, descending. -/
def sortCounts : List (String × ℕ) → List (String × ℕ)
  | [] => []
  | x :: xs => insertByCount x (sortCounts xs)

/-- `value_counts(normalize=True)` over string values: distinct values
with relative frequencies, most frequent first. -/
def valueCounts (vals : List String) : List (String × ℚ) :=
  (sortCounts (tally vals)).map (fun p => (p.1, (p.2 : ℚ) / (vals.length : ℚ)))

/-- The loop body of `check_rare_categories` for one column
(with the default `min_ratio = 0.01`). -/
def rareFinding (col : Column) : Option CheckResult :=
  if isStringDtype col.dtype || decide (col.dtype = DType.category) then
    let vals := col.cells.map cellStr
    let vc := valueCounts vals
    let rare := vc.filter (fun p => decide (p.2 < 1/100))
    if rare.isEmpty then none
    else
      some ⟨"Rare Categories: " ++ col.name, "minor",
        [[("n_rare", IVal.int (rare.length : ℤ)),
          ("examples", IVal.record ((rare.take 5).map (fun p => (p.1, IVal.rat p.2))))]],
        norm (rare.length : ℚ) 50⟩
  else none

/-- `check_rare_categories` of run_audit.py. -/
def check_rare_categories (df : DataFrame) : List CheckResult :=
  df.cols.filterMap rareFinding

/-- `round(x, 3)`, ties to even. -/
def round3 (x : ℚ) : ℚ :=
  (roundHalfEven (1000 * x) : ℚ) / 1000

/-- ASCII uppercase test. -/
def isUpperCh (c : Char) : Bool :=
  decide ('A' ≤ c) && decide (c ≤ 'Z')

/-- ASCII lowercase test. -/
def isLowerCh (c : Char) : Bool :=
  decide ('a' ≤ c) && decide (c ≤ 'z')

/-- ASCII digit test. -/
def isDigitCh (c : Char) : Bool :=
  decide ('0' ≤ c) && decide (c ≤ '9')

/-- ASCII letter test. -/
def isAlphaCh (c : Char) : Bool :=
  isUpperCh c || isLowerCh c

/-- The character class `[A-Za-z0-9._%+-]` of the email pattern. -/
def isLocalChar (c : Char) : Bool :=
  isAlphaCh c || isDigitCh c || c == '.' || c == '_' || c == '%' || c == '+' || c == '-'

/-- The character class `[A-Za-z0-9.-]` of the email pattern. -/
def isDomainChar (c : Char) : Bool :=
  isAlphaCh c || isDigitCh c || c == '.' || c == '-'

/-- Full match of `SEMANTIC_PATTERNS["email"]`:
`^[A-Za-z0-9._%+-]+@[A-Za-z0-9.-]+\.[A-Za-z]..$` with a 2-or-more tail. -/
def emailMatch (s : String) : Bool :=
  let cs := s.data
  let loc := cs.takeWhile (fun c => !(c == '@'))
  match cs.drop loc.length with
  | '@' :: dom =>
    let tailRev := dom.reverse.takeWhile (fun c => !(c == '.'))
    (match dom.reverse.drop tailRev.length with
     | '.' :: dRev =>
       (!loc.isEmpty) && loc.all isLocalChar &&
       (!dRev.isEmpty) && dRev.all isDomainChar &&
       decide (2 ≤ tailRev.length) && tailRev.all isAlphaCh
     | _ => false)
  | _ => false

/-- ASCII upper-casing, for the case-insensitive postcode pattern. -/
def upChar (c : Char) : Char :=
  if isLowerCh c then Char.ofNat (c.toNat - 32) else c

/-- The character class `[A-HJ-Y]` of the postcode pattern. -/
def midLetter (c : Char) : Bool :=
  isUpperCh c && !(c == 'I') && !(c == 'Z')

/-- The outward-code alternatives of `SEMANTIC_PATTERNS["uk_postcode"]`. -/
def outwardOK : List Char → Bool
  | [a, b] => isUpperCh a && isDigitCh b
  | [a, b, c] =>
    (isUpperCh a && isDigitCh b && isDigitCh c) ||
    (isUpperCh a && midLetter b && isDigitCh c) ||
    (isUpperCh a && isDigitCh b && isUpperCh c) ||
    (isUpperCh a && midLetter b && isUpperCh c)
  | [a, b, c, d] =>
    (isUpperCh a && midLetter b && isDigitCh c && isDigitCh d) ||
    (isUpperCh a && midLetter b && isDigitCh c && isUpperCh d)
  | _ => false

/-- Full case-insensitive match of `SEMANTIC_PATTERNS["uk_postcode"]`. -/
def ukPostcodeMatch (s : String) : Bool :=
  let u := s.data.map upChar
  u == ['G', 'I', 'R', '0', 'A', 'A'] ||
  u == ['G', 'I', 'R', ' ', '0', 'A', 'A'] ||
  (match u.reverse with
   | l₂ :: l₁ :: d :: restRev =>
     isDigitCh d && isUpperCh l₁ && isUpperCh l₂ &&
     (let out := restRev.reverse
      outwardOK out ||
      (match out.getLast? with
       | some ' ' => outwardOK out.dropLast
       | _ => false))
   | _ => false)

/-- `str.contains(r"[A-Z]\d")`: an uppercase letter directly followed by a
digit occurs somewhere. -/
def hasUpperDigit : List Char → Bool
  | a :: b :: rest => (isUpperCh a && isDigitCh b) || hasUpperDigit (b :: rest)
  | _ => false

/-- The loop body of `check_semantic_regex` for one column. -/
def semanticFindings (col : Column) : List CheckResult :=
  if isStringDtype col.dtype then
    let sample := (col.cells.filter (fun c => !(Cell.isna c))).map cellStr
    if sample.isEmpty then []
    else
      let n : ℚ := (sample.length : ℚ)
      let likeEmail := decide (1/2 < ((sample.countP (fun v => v.data.contains '@')) : ℚ) / n)
      let likePc := decide (1/2 < ((sample.countP (fun v => hasUpperDigit v.data)) : ℚ) / n)
      let ePart :=
        if likeEmail then
          let bad := ((sample.countP (fun v => !(emailMatch v))) : ℚ) / n
          if 3/10 < bad then
            [⟨"Semantic Violations (email) in " ++ col.name, "major",
              [[("fail_rate", IVal.rat (round3 bad))]], min 1 bad⟩]
          else []
        else []
      let pPart :=
        if likePc then
          let bad := ((sample.countP (fun v => !(ukPostcodeMatch v))) : ℚ) / n
          if 3/10 < bad then
            [⟨"Semantic Violations (UK postcode) in " ++ col.name, "major",
              [[("fail_rate", IVal.rat (round3 bad))]], min 1 bad⟩]
          else []
        else []
      ePart ++ pPart
  else []

/-- `check_semantic_regex` of run_audit.py. -/
def check_semantic_regex (df : DataFrame) : List CheckResult :=
  df.cols.flatMap semanticFindings

/-- Is `pat` a leading piece of the second list? -/
def listStarts : List Char → List Char → Bool
  | [], _ => true
  | _ :: _, [] => false
  | p :: ps, c :: cs => p == c && listStarts ps cs

/-- Substring occurrence test on character lists. -/
def containsSub (pat : List Char) : List Char → Bool
  | [] => pat.isEmpty
  | c :: cs => listStarts pat (c :: cs) || containsSub pat cs

/-- ASCII lower-casing. -/
def lowChar (c : Char) : Char :=
  if isUpperCh c then Char.ofNat (c.toNat + 32) else c

/-- `"date" in c.lower()`. -/
def nameHasDate (s : String) : Bool :=
  containsSub ['d', 'a', 't', 'e'] (s.data.map lowChar)

/-- A column attempted by `check_dates`: name contains "date"
case-insensitively, or the dtype is already datetime. -/
def isDateCandidate (col : Column) : Bool :=
  nameHasDate col.name || isDatetimeDtype col.dtype

/-- `pd.to_datetime(·, errors="coerce", utc=True)` on one cell; `pdate` is
pandas' date parser for strings (external to this repository). -/
def cellToDT (pdate : String → Option ℤ) : Cell → Option ℤ
  | .na => none
  | .int i => some i
  | .float q => some (Int.floor q)
  | .str s => pdate s
  | .datetime t => some t

/-- The coerced timestamp series of one column. -/
def parsedSeries (pdate : String → Option ℤ) (col : Column) : List (Option ℤ) :=
  col.cells.map (cellToDT pdate)

/-- `s.isna().sum()` after coercion: the number of values that fail to
coerce to a timestamp. -/
def invalidCount (pdate : String → Option ℤ) (col : Column) : ℕ :=
  (parsedSeries pdate col).countP (fun o => o.isNone)

/-- `check_dates` of run_audit.py. -/
def check_dates (pdate : String → Option ℤ) (df : DataFrame) : List CheckResult :=
  let dcols := df.cols.filter isDateCandidate
  let inv := dcols.filterMap (fun col =>
    let invalid := invalidCount pdate col
    if 0 < invalid then
      some ⟨"Invalid Dates: " ++ col.name, "minor", [[("invalid", IVal.int (invalid : ℤ))]],
        norm (invalid : ℚ) (max 10 ((nRows df : ℚ) * (5/100)))⟩
    else none)
  let temporal :=
    match dcols.find? (fun c => c.name == "order_date"),
          dcols.find? (fun c => c.name == "ship_date") with
    | some oc, some sc =>
      let bad := ((parsedSeries pdate sc).zip (parsedSeries pdate oc)).countP
        (fun p => match p with
          | (some s, some o) => decide (s < o)
          | _ => false)
      if 0 < bad then
        [⟨"Temporal Rule: ship_date ≥ order_date", "major",
          [[("violations", IVal.int (bad : ℤ))]], norm (bad : ℚ) (max 10 ((nRows df : ℚ) * (5/100)))⟩]
      else []
    | _, _ => []
  inv ++ temporal

/-- All seven checks concatenated, in the order `main`/`run` executes
them. -/
def allChecks (pdate : String → Option ℤ) (pnum : String → Option ℚ)
    (df : DataFrame) (baseline : Option Baseline) (pk : List String) : List CheckResult :=
  check_schema df baseline ++ check_primary_key df pk ++
  check_missing_duplicates_types df ++ check_outliers_iqr pnum df ++
  check_rare_categories df ++ check_semantic_regex df ++ check_dates pdate df

/-- `rec[k] = v` on a Python dict kept as an ordered association list:
an existing key is updated in place, a new key is appended at the end. -/
def setKey : IssueRec → String → IVal → IssueRec
  | [], k, v => [(k, v)]
  | (k', v') :: rest, k, v =>
    if k' = k then (k, v) :: rest else (k', v') :: setKey rest k v

/-- `rec.get(k)`. -/
def lookupKey (rec : IssueRec) (k : String) : Option IVal :=
  match rec.find? (fun p => p.1 == k) with
  | some p => some p.2
  | none => none

/-- Read an integer out of an issue-record entry. -/
def getIntIV : Option IVal → Option ℤ
  | some (IVal.int i) => some i
  | _ => none

/-- Read a numeric bound out of an issue-record entry (Python compares
ints and floats alike). -/
def getRatIV : Option IVal → Option ℚ
  | some (IVal.int i) => some (i : ℚ)
  | some (IVal.rat q) => some q
  | _ => none

/-- Row i serialized as a record, as `to_dict("records")` does. -/
def rowRecord (df : DataFrame) (i : ℕ) : IssueRec :=
  df.cols.map (fun col => (col.name, cellToIVal (col.cells.getD i Cell.na)))

/-- The three key insertions of the duplicate-row enrichment in app.run:
`row_indices`, `sample_rows`, `columns` on the first issue record. -/
def enrichDupIssues (df : DataFrame) : List IssueRec → List IssueRec
  | [] => []
  | rec :: rest =>
    (setKey (setKey (setKey rec "row_indices"
        (IVal.list ((dupAnyIdx (dfRows df)).map (fun n => IVal.int (n : ℤ)))))
      "sample_rows"
        (IVal.list (((dupAnyIdx (dfRows df)).take 10).map (fun i => IVal.record (rowRecord df i)))))
      "columns" (IVal.list ((colNames df).map IVal.str))) :: rest

/-- The duplicate-row enrichment loop of app.run: the first finding named
"Duplicate Rows" with non-empty issues is updated, then `break`. -/
def enrichDupList (df : DataFrame) : List CheckResult → List CheckResult
  | [] => []
  | r :: rs =>
    if r.name == "Duplicate Rows" && !r.issues.isEmpty then
      ⟨r.name, r.severity, enrichDupIssues df r.issues, r.impact⟩ :: rs
    else r :: enrichDupList df rs

/-- The duplicate-row enrichment stage (guarded by `not dup_df.empty`). -/
def enrichDupStage (df : DataFrame) (rs : List CheckResult) : List CheckResult :=
  if (dupAnyIdx (dfRows df)).isEmpty then rs else enrichDupList df rs

/-- Python's `str.strip()` whitespace test. -/
def isSpaceCh (c : Char) : Bool :=
  c == ' ' || c == '\t' || c == '\n' || c == '\r'

/-- `strip()` on a character list. -/
def trimChars (l : List Char) : List Char :=
  ((l.dropWhile isSpaceCh).reverse.dropWhile isSpaceCh).reverse

/-- `s.split(":", 1)[1].strip()`, `none` when no colon occurs (the
IndexError branch caught by app.run). -/
def afterColon (s : String) : Option String :=
  let pre := s.data.takeWhile (fun c => !(c == ':'))
  if pre.length = s.data.length then none
  else some (String.mk (trimChars (s.data.drop (pre.length + 1))))

/-- `s.startswith(pat)`. -/
def strStarts (s pat : String) : Bool :=
  listStarts pat.data s.data

/-- Sort key `abs` of the outlier sample ordering. -/
def absKey : ℕ × Option ℚ → ℚ
  | (_, some v) => |v|
  | (_, none) => 0

/-- Insertion step for sorting by descending absolute value. -/
def insertAbsDesc (x : ℕ × Option ℚ) : List (ℕ × Option ℚ) → List (ℕ × Option ℚ)
  | [] => [x]
  | y :: ys => if absKey y ≤ absKey x then x :: y :: ys else y :: insertAbsDesc x ys

/-- `sort_values(key=abs, ascending=False)` on (index, value) pairs. -/
def sortAbsDesc : List (ℕ × Option ℚ) → List (ℕ × Option ℚ)
  | [] => []
  | x :: xs => insertAbsDesc x (sortAbsDesc xs)

/-- A `"{:.3f}"`-style rendering of a rational cutoff. -/
def fmt3 (q : ℚ) : String :=
  let m := roundHalfEven (1000 * q)
  let a := m.natAbs
  let ip := a / 1000
  let fp := a % 1000
  let fps :=
    if fp < 10 then "00" ++ toString fp
    else if fp < 100 then "0" ++ toString fp
    else toString fp
  (if m < 0 then "-" else "") ++ toString ip ++ "." ++ fps

/-- The `explain` string attached by the IQR enrichment of app.run. -/
def explainStr (col : String) (lo hi : ℚ) : String :=
  "Outliers flagged using the IQR rule: values lower than Q1−1.5×IQR or higher than Q3+1.5×IQR. For “"
    ++ col ++ "”, the low/high cutoffs are " ++ fmt3 lo ++ " / " ++ fmt3 hi ++ "."

/-- The IQR enrichment of one finding in app.run.  Returns `none` when
the Python loop would raise uncaught (a finding named "IQR Outliers: c"
for an existing column c whose first issue record lacks numeric `lo` or
`hi`), since that loop body is not wrapped in try/except. -/
def enrichIQROne (pnum : String → Option ℚ) (df : DataFrame) (r : CheckResult) :
    Option CheckResult :=
  if strStarts r.name "IQR Outliers" then
    match afterColon r.name with
    | none => some r
    | some col =>
      if (!(col == "")) && (colNames df).contains col && !r.issues.isEmpty then
        match r.issues with
        | [] => some r
        | info :: rest =>
          match getRatIV (lookupKey info "lo"), getRatIV (lookupKey info "hi") with
          | some lo, some hi =>
            let s := (match findCol df col with
              | some c => c.cells.map (cellToNum pnum)
              | none => [])
            let maskIdx := (List.range s.length).filter (fun i =>
              match s.getD i none with
              | some v => decide (v < lo) || decide (hi < v)
              | none => false)
            let sorted := sortAbsDesc (maskIdx.map (fun i => (i, s.getD i none)))
            let sample := (sorted.take 10).map (fun p =>
              IVal.record [("index", IVal.int (p.1 : ℤ)),
                ("value", match p.2 with | some v => IVal.rat v | none => IVal.nullv)])
            let info' := setKey (setKey (setKey (setKey info "column" (IVal.str col))
              "row_indices" (IVal.list (maskIdx.map (fun n => IVal.int (n : ℤ)))))
              "sample_values" (IVal.list sample))
              "explain" (IVal.str (explainStr col lo hi))
            some ⟨r.name, r.severity, info' :: rest, r.impact⟩
          | _, _ => none
      else some r
  else some r

/-- The whole enrichment stage of app.run: the duplicate-row enrichment
followed by the IQR enrichment over every finding. -/
def enrichAll (pnum : String → Option ℚ) (df : DataFrame) (rs : List CheckResult) :
    Option (List CheckResult) :=
  (enrichDupStage df rs).mapM (enrichIQROne pnum df)

/-- Modelled from the spec's words (claim C3): the number of rows that
share identical values across all key columns with at least one other
row. -/
def specPkDuplicates (df : DataFrame) (pk : List String) : ℕ :=
  (List.range (nRows df)).countP (dupAnyB (pkRows df pk))

/-- The duplicates count reported inside the Primary Key finding. -/
def reportedPkDuplicates (df : DataFrame) (pk : List String) : Option ℤ :=
  match check_primary_key df pk with
  | [f] =>
    (match f.issues with
     | [rec] => getIntIV (lookupKey rec "duplicates")
     | _ => none)
  | _ => none

/-- The (count, lo, hi) triple inside a single IQR Outliers finding. -/
def outlierStats (rs : List CheckResult) : Option (ℤ × ℚ × ℚ) :=
  match rs with
  | [f] =>
    (match f.issues with
     | [rec] =>
       (match getIntIV (lookupKey rec "count"), getRatIV (lookupKey rec "lo"),
              getRatIV (lookupKey rec "hi") with
        | some c, some lo, some hi => some (c, lo, hi)
        | _, _, _ => none)
     | _ => none)
  | _ => none

/-- A date parser that accepts nothing (a valid instance of the external
parser parameter, used for concrete evaluation). -/
def pdNone : String → Option ℤ :=
  fun _ => none

/-- A numeric parser that accepts nothing (a valid instance of the
external parser parameter, used for concrete evaluation). -/
def pnNone : String → Option ℚ :=
  fun _ => none

/-- A one-column frame whose two rows share the primary-key value. -/
def dfPkPair : DataFrame :=
  ⟨[⟨"id", DType.int64, [Cell.int 1, Cell.int 1]⟩]⟩

/-- A one-column frame with key values [1, 1, 2]. -/
def dfPkTriple : DataFrame :=
  ⟨[⟨"id", DType.int64, [Cell.int 1, Cell.int 1, Cell.int 2]⟩]⟩

/-- The numeric column of the C4 example. -/
def qList : List ℚ :=
  [1, 2, 3, 4, 5, 6, 7, 8, 9, 100]

/-- The frame holding the C4 example column. -/
def dfOutlier : DataFrame :=
  ⟨[⟨"x", DType.int64,
    [Cell.int 1, Cell.int 2, Cell.int 3, Cell.int 4, Cell.int 5,
     Cell.int 6, Cell.int 7, Cell.int 8, Cell.int 9, Cell.int 100]⟩]⟩

/-- A frame with a date-named text column whose values fail coercion. -/
def dfDates : DataFrame :=
  ⟨[⟨"start_date", DType.object, [Cell.str "notadate", Cell.str "alsobad"]⟩]⟩

/-- A one-column frame with an exact duplicate row. -/
def dfDup : DataFrame :=
  ⟨[⟨"a", DType.int64, [Cell.int 1, Cell.int 1, Cell.int 2]⟩]⟩

/-- A finding list exercising both enrichment branches on `dfDup`. -/
def rsEnrich : List CheckResult :=
  [⟨"Duplicate Rows", "major", [[("duplicates", IVal.int 1)]], 1/10⟩,
   ⟨"IQR Outliers: a", "major",
     [[("count", IVal.int 1), ("lo", IVal.rat 0), ("hi", IVal.rat (3/2))]], 1/10⟩,
   ⟨"Missing Values", "major", [[("column", IVal.str "a"), ("missing", IVal.int 0)]], 0⟩]

/-- The data-model invariant of an emitted finding: a non-empty issues
list and an impact in the closed interval [0, 1]. -/
def FindingOk (f : CheckResult) : Prop :=
  f.issues ≠ [] ∧ 0 ≤ f.impact ∧ f.impact ≤ 1

/-- The keys the Enrichment Stage may set on a finding with this name:
row evidence for "Duplicate Rows", column/row evidence and the
explanation for "IQR Outliers: …", nothing for anything else. -/
def enrichKeysFor (n : String) : List String :=
  if n = "Duplicate Rows" then ["row_indices", "sample_rows", "columns"]
  else if strStarts n "IQR Outliers" then ["column", "row_indices", "sample_values", "explain"]
  else []

/-- What the Enrichment Stage is allowed to do to one finding: name,
severity and impact are unchanged; a finding that is neither the
duplicate-rows one nor an IQR one is untouched; all issue records but
the first are unchanged, the issues count is unchanged, and in the first
record every key outside the enrichment keys is unchanged. -/
def additivePair (f f' : CheckResult) : Prop :=
  f'.name = f.name ∧ f'.severity = f.severity ∧ f'.impact = f.impact ∧
  ((f.name ≠ "Duplicate Rows" ∧ strStarts f.name "IQR Outliers" = false) → f' = f) ∧
  f'.issues.length = f.issues.length ∧
  f'.issues.tail = f.issues.tail ∧
  (∀ rec ∈ f.issues.head?, ∀ rec' ∈ f'.issues.head?,
    ∀ k, k ∉ enrichKeysFor f.name → lookupKey rec' k = lookupKey rec k)

/-- The "Duplicate Rows" finding exactly as `check_missing_duplicates_types`
emits it when duplicates exist. -/
def dupFindingOf (df : DataFrame) : CheckResult :=
  ⟨"Duplicate Rows", "major",
    [[("duplicates", IVal.int (dupFirstCount (dfRows df) : ℤ))]],
    norm ((dupFirstCount (dfRows df) : ℚ)) (max 10 ((nRows df : ℚ) * (3/100)))⟩

/-- A concrete critical finding with impact 1 (used as a test input). -/
def exCritical : CheckResult :=
  ⟨"Primary Key Uniqueness", "critical", [], 1⟩

/-- A concrete major finding with impact 1 (used as a test input). -/
def exMajor : CheckResult :=
  ⟨"Duplicate Rows", "major", [], 1⟩

/-- A concrete minor finding with impact 1 (used as a test input). -/
def exMinor : CheckResult :=
  ⟨"Rare Categories: city", "minor", [], 1⟩

theorem severityWeight_pos (s : String) : 0 < severityWeight s := by
  unfold severityWeight
  split_ifs <;> norm_num

theorem findingPenalty_nonneg (r : CheckResult) (h : 0 ≤ r.impact) :
    0 ≤ findingPenalty r := by
  unfold findingPenalty
  have hw := severityWeight_pos r.severity
  positivity

theorem penaltySum_nonneg (fs : List CheckResult) (h : ∀ f ∈ fs, 0 ≤ f.impact) :
    0 ≤ (fs.map findingPenalty).sum := by
  apply List.sum_nonneg
  intro x hx
  obtain ⟨f, hf, rfl⟩ := List.mem_map.mp hx
  exact findingPenalty_nonneg f (h f hf)

theorem roundHalfEven_lb (x : ℚ) : Int.floor x ≤ roundHalfEven x := by
  unfold roundHalfEven
  split_ifs <;> omega

theorem roundHalfEven_ub (x : ℚ) : roundHalfEven x ≤ Int.floor x + 1 := by
  unfold roundHalfEven
  split_ifs <;> omega

theorem roundHalfEven_mono {x y : ℚ} (h : x ≤ y) :
    roundHalfEven x ≤ roundHalfEven y := by
  rcases lt_or_le (Int.floor x) (Int.floor y) with hf | hf
  · calc roundHalfEven x ≤ Int.floor x + 1 := roundHalfEven_ub x
      _ ≤ Int.floor y := by omega
      _ ≤ roundHalfEven y := roundHalfEven_lb y
  · have hfe : Int.floor x = Int.floor y := le_antisymm (Int.floor_le_floor h) hf
    have hs : x - (Int.floor x : ℚ) ≤ y - (Int.floor y : ℚ) := by
      rw [hfe]
      exact sub_le_sub_right h _
    unfold roundHalfEven
    rw [hfe] at hs ⊢
    split_ifs <;> first | omega | (exfalso; linarith)

theorem round1_mono {x y : ℚ} (h : x ≤ y) : round1 x ≤ round1 y := by
  unfold round1
  have hm : (roundHalfEven (10 * x) : ℚ) ≤ (roundHalfEven (10 * y) : ℚ) := by
    exact_mod_cast roundHalfEven_mono (by linarith : 10 * x ≤ 10 * y)
  linarith

theorem severityWeight_eq_spec (s : String) :
    severityWeight s = specSeverityWeight s := by
  unfold severityWeight specSeverityWeight
  split_ifs <;> rfl

/-- C1: for every finding list (with impacts and severities from the data
model), the computed score equals
round(clamp(100 − Σ severity_weight × impact × 10, 0, 100), 1) with
severity weights critical=3, major=2, minor=1. -/
theorem claim_C1_score_formula (fs : List CheckResult)
    (h : ∀ f ∈ fs, 0 ≤ f.impact ∧
      f.severity ∈ (["critical", "major", "minor"] : List String)) :
    compute_score fs = specScore fs := by
  unfold compute_score specScore clampSpec
  have hmap : fs.map findingPenalty =
      fs.map (fun r => specSeverityWeight r.severity * r.impact * 10) := by
    refine List.map_congr_left ?_
    intro f _
    unfold findingPenalty
    rw [severityWeight_eq_spec]
  rw [← hmap]
  have hp : 0 ≤ (fs.map findingPenalty).sum :=
    penaltySum_nonneg fs (fun f hf => (h f hf).1)
  have hle : max 0 (100 - (fs.map findingPenalty).sum) ≤ 100 :=
    max_le (by norm_num) (by linarith)
  rw [min_eq_right hle]

/-- Witness for C1: evaluated on a one-element finding list. -/
theorem claim_C1_score_formula_witness :
    (∀ f ∈ [exCritical], 0 ≤ f.impact ∧
      f.severity ∈ (["critical", "major", "minor"] : List String)) ∧
    compute_score [exCritical] = specScore [exCritical] :=
  ⟨by decide, claim_C1_score_formula [exCritical] (by decide)⟩

/-- C5: the empty finding list scores exactly 100, and appending any
finding (with a data-model impact, i.e. nonnegative) never increases the
computed score. -/
theorem claim_C5_score_antitone :
    compute_score [] = 100 ∧
    ∀ (fs : List CheckResult) (f : CheckResult), 0 ≤ f.impact →
      compute_score (fs ++ [f]) ≤ compute_score fs := by
  constructor
  · decide
  · intro fs f hf
    unfold compute_score
    apply round1_mono
    have hq : 0 ≤ findingPenalty f := findingPenalty_nonneg f hf
    have hsum : (List.map findingPenalty (fs ++ [f])).sum =
        (fs.map findingPenalty).sum + findingPenalty f := by
      simp
    rw [hsum]
    exact max_le_max le_rfl (by linarith)

/-- Witness for C5: appending a concrete critical finding to the empty
list does not increase the score. -/
theorem claim_C5_score_antitone_witness :
    (0 ≤ exMajor.impact) ∧ compute_score ([] ++ [exMajor]) ≤ compute_score [] :=
  ⟨by decide, claim_C5_score_antitone.2 [] exMajor (by decide)⟩

/-- Counterexample to C6 as stated: at equal impact 1, a critical finding
contributes a penalty of 30 and a major finding 20, and 30 ≠ 3 × 20 — the
critical penalty is not three times the major penalty. -/
theorem claim_C6_counterexample :
    findingPenalty exCritical = 30 ∧ findingPenalty exMajor = 20 ∧
    ¬ findingPenalty exCritical = 3 * findingPenalty exMajor := by
  decide

/-- C6 (amended): at equal impact, a critical finding contributes 3/2
times the score penalty of a major finding (and three times that of a
minor finding). -/
theorem claim_C6_amended (n₁ n₂ : String) (is₁ is₂ : List IssueRec) (q : ℚ) :
    findingPenalty ⟨n₁, "critical", is₁, q⟩ =
      3/2 * findingPenalty ⟨n₂, "major", is₂, q⟩ ∧
    findingPenalty ⟨n₁, "critical", is₁, q⟩ =
      3 * findingPenalty ⟨n₂, "minor", is₂, q⟩ := by
  have hc : severityWeight "critical" = 3 := by decide
  have hm : severityWeight "major" = 2 := by decide
  have hmi : severityWeight "minor" = 1 := by decide
  constructor
  · show severityWeight "critical" * q * 10 = 3/2 * (severityWeight "major" * q * 10)
    rw [hc, hm]; ring
  · show severityWeight "critical" * q * 10 = 3 * (severityWeight "minor" * q * 10)
    rw [hc, hmi]; ring

/-- C8: with no Baseline the Schema check returns the empty list, and
with an empty primary-key column list the Primary Key check returns the
empty list — both are silent no-ops for every dataset. -/
theorem claim_C8_optional_inputs :
    (∀ df : DataFrame, check_schema df none = []) ∧
    (∀ df : DataFrame, check_primary_key df [] = []) :=
  ⟨fun _ => rfl, fun _ => rfl⟩

/-- Counterexample to C3 as stated: on a frame whose two rows share the
same key value, the check reports 1 duplicate (pandas `duplicated` with
`keep="first"` skips each group's first row), while the claimed count —
rows sharing their key values with at least one other row — is 2. -/
theorem claim_C3_counterexample :
    reportedPkDuplicates dfPkPair ["id"] = some 1 ∧
    specPkDuplicates dfPkPair ["id"] = 2 ∧
    reportedPkDuplicates dfPkPair ["id"] ≠ some (specPkDuplicates dfPkPair ["id"] : ℤ) := by
  refine ⟨by decide, by decide, by decide⟩

/-- C4: on the numeric column [1,2,3,4,5,6,7,8,9,100] the IQR check
computes Q1 = 3.25, Q3 = 7.75, IQR = max(Q3−Q1, ε) = 4.5, bounds
lo = Q1 − 1.5·IQR = −3.5 and hi = Q3 + 1.5·IQR = 14.5, flags exactly the
value 100, and emits one major finding with count 1 and those bounds. -/
theorem claim_C4_iqr_example :
    percentile qList 25 = 13/4 ∧
    percentile qList 75 = 31/4 ∧
    max (percentile qList 75 - percentile qList 25) (1/1000000000) = 9/2 ∧
    percentile qList 25 - 3/2 * max (percentile qList 75 - percentile qList 25) (1/1000000000) = -7/2 ∧
    percentile qList 75 + 3/2 * max (percentile qList 75 - percentile qList 25) (1/1000000000) = 29/2 ∧
    qList.filter (fun x => decide (x < -7/2) || decide ((29/2 : ℚ) < x)) = [100] ∧
    (check_outliers_iqr pnNone dfOutlier).map (fun f => (f.name, f.severity, f.impact)) =
      [("IQR Outliers: x", "major", 1/10)] ∧
    outlierStats (check_outliers_iqr pnNone dfOutlier) = some (1, -7/2, 29/2) := by
  refine ⟨by decide, by decide, by decide, by decide, by decide, by decide, by decide, by decide⟩


theorem norm_rule_nonneg (x cap : ℚ) : 0 ≤ norm x cap :=
  le_max_left 0 _

theorem norm_rule_le_one (x cap : ℚ) : norm x cap ≤ 1 :=
  max_le (by norm_num) (min_le_left 1 _)

theorem check_schema_ok (df : DataFrame) (b : Option Baseline) :
    ∀ f ∈ check_schema df b, FindingOk f := by
  intro f hf
  match b with
  | none => cases hf
  | some b =>
    simp only [check_schema, List.mem_append] at hf
    rcases hf with (hf | hf) | hf
    · split at hf
      · cases hf
      · rw [List.mem_singleton] at hf
        subst hf
        exact ⟨by simp, norm_rule_nonneg _ _, norm_rule_le_one _ _⟩
    · split at hf
      · cases hf
      · rw [List.mem_singleton] at hf
        subst hf
        exact ⟨by simp, norm_rule_nonneg _ _, norm_rule_le_one _ _⟩
    · split at hf
      · cases hf
      · next hc =>
        rw [List.mem_singleton] at hf
        subst hf
        refine ⟨?_, norm_rule_nonneg _ _, norm_rule_le_one _ _⟩
        simpa [List.isEmpty_iff] using hc

theorem check_primary_key_ok (df : DataFrame) (pk : List String) :
    ∀ f ∈ check_primary_key df pk, FindingOk f := by
  intro f hf
  match pk with
  | [] => cases hf
  | k :: pk' =>
    simp only [check_primary_key] at hf
    split at hf
    · rw [List.mem_singleton] at hf
      subst hf
      exact ⟨by simp, norm_rule_nonneg _ _, norm_rule_le_one _ _⟩
    · cases hf

theorem check_missing_duplicates_types_ok (df : DataFrame) :
    ∀ f ∈ check_missing_duplicates_types df, FindingOk f := by
  intro f hf
  simp only [check_missing_duplicates_types, List.mem_append] at hf
  rcases hf with hf | hf
  · split at hf
    · cases hf
    · next hc =>
      rw [List.mem_singleton] at hf
      subst hf
      refine ⟨?_, norm_rule_nonneg _ _, norm_rule_le_one _ _⟩
      simp only [ne_eq, List.map_eq_nil_iff]
      simpa [List.isEmpty_iff] using hc
  · split at hf
    · rw [List.mem_singleton] at hf
      subst hf
      exact ⟨by simp, norm_rule_nonneg _ _, norm_rule_le_one _ _⟩
    · cases hf

theorem outlierFinding_ok (pnum : String → Option ℚ) (col : Column) (f : CheckResult)
    (h : outlierFinding pnum col = some f) : FindingOk f := by
  simp only [outlierFinding] at h
  split at h
  · split at h
    · cases h
    · split at h
      · injection h with h
        subst h
        exact ⟨by simp, norm_rule_nonneg _ _, norm_rule_le_one _ _⟩
      · cases h
  · cases h

theorem check_outliers_iqr_ok (pnum : String → Option ℚ) (df : DataFrame) :
    ∀ f ∈ check_outliers_iqr pnum df, FindingOk f := by
  intro f hf
  obtain ⟨col, _, h⟩ := List.mem_filterMap.mp hf
  exact outlierFinding_ok pnum col f h

theorem rareFinding_ok (col : Column) (f : CheckResult)
    (h : rareFinding col = some f) : FindingOk f := by
  simp only [rareFinding] at h
  split at h
  · split at h
    · cases h
    · injection h with h
      subst h
      exact ⟨by simp, norm_rule_nonneg _ _, norm_rule_le_one _ _⟩
  · cases h

theorem check_rare_categories_ok (df : DataFrame) :
    ∀ f ∈ check_rare_categories df, FindingOk f := by
  intro f hf
  obtain ⟨col, _, h⟩ := List.mem_filterMap.mp hf
  exact rareFinding_ok col f h

theorem semanticFindings_ok (col : Column) :
    ∀ f ∈ semanticFindings col, FindingOk f := by
  intro f hf
  simp only [semanticFindings] at hf
  split at hf
  · split at hf
    · cases hf
    · simp only [List.mem_append] at hf
      rcases hf with hf | hf
      · split at hf
        · split at hf
          · rw [List.mem_singleton] at hf
            subst hf
            exact ⟨by simp, le_min (by norm_num) (by positivity), min_le_left _ _⟩
          · cases hf
        · cases hf
      · split at hf
        · split at hf
          · rw [List.mem_singleton] at hf
            subst hf
            exact ⟨by simp, le_min (by norm_num) (by positivity), min_le_left _ _⟩
          · cases hf
        · cases hf
  · cases hf

theorem check_semantic_regex_ok (df : DataFrame) :
    ∀ f ∈ check_semantic_regex df, FindingOk f := by
  intro f hf
  obtain ⟨col, _, h⟩ := List.mem_flatMap.mp hf
  exact semanticFindings_ok col f h

theorem check_dates_ok (pdate : String → Option ℤ) (df : DataFrame) :
    ∀ f ∈ check_dates pdate df, FindingOk f := by
  intro f hf
  simp only [check_dates, List.mem_append] at hf
  rcases hf with hf | hf
  · obtain ⟨col, _, h⟩ := List.mem_filterMap.mp hf
    split at h
    · injection h with h
      subst h
      exact ⟨by simp, norm_rule_nonneg _ _, norm_rule_le_one _ _⟩
    · cases h
  · split at hf
    · split at hf
      · rw [List.mem_singleton] at hf
        subst hf
        exact ⟨by simp, norm_rule_nonneg _ _, norm_rule_le_one _ _⟩
      · cases hf
    · cases hf

/-- C2: every finding returned by any of the seven check functions has a
non-empty issues list and an impact in the closed interval [0,1]; a check
that detects nothing contributes no finding at all (the concatenated
output carries only findings satisfying the invariant). -/
theorem claim_C2_finding_invariant (pdate : String → Option ℤ) (pnum : String → Option ℚ)
    (df : DataFrame) (baseline : Option Baseline) (pk : List String) :
    (allChecks pdate pnum df baseline pk).Forall FindingOk := by
  rw [List.forall_iff_forall_mem]
  intro f hf
  simp only [allChecks, List.mem_append] at hf
  rcases hf with ((((((hf | hf) | hf) | hf) | hf) | hf) | hf)
  · exact check_schema_ok df baseline f hf
  · exact check_primary_key_ok df pk f hf
  · exact check_missing_duplicates_types_ok df f hf
  · exact check_outliers_iqr_ok pnum df f hf
  · exact check_rare_categories_ok df f hf
  · exact check_semantic_regex_ok df f hf
  · exact check_dates_ok pdate df f hf

theorem invalid_dates_name_inj {a b : String}
    (h : "Invalid Dates: " ++ a = "Invalid Dates: " ++ b) : a = b := by
  have hd := congrArg String.data h
  rw [String.data_append, String.data_append] at hd
  exact String.ext (List.append_cancel_left hd)

theorem invalid_dates_ne_temporal (c : String) :
    ("Invalid Dates: " ++ c) ≠ "Temporal Rule: ship_date ≥ order_date" := by
  intro h
  have hd := congrArg (fun s => s.data.head?) h
  simp only at hd
  rw [String.data_append] at hd
  have h1 : ("Invalid Dates: ".data ++ c.data).head? = some 'I' := rfl
  rw [h1] at hd
  exact absurd hd (by decide)

/-- C3 (amended): for every dataset and non-empty primary-key list whose
columns all exist, the reported duplicates count is the number of rows
whose key values coincide with those of an *earlier* row (pandas
`duplicated` with `keep="first"`, i.e. each duplicate group contributes
its size minus one); exactly one critical "Primary Key Uniqueness"
finding with impact normalize(count, max(10, 2% of rows)) is emitted when
that count is positive, and nothing otherwise. -/
theorem claim_C3_amended (df : DataFrame) (pk : List String) (hpk : pk ≠ [])
    (hsub : ∀ k ∈ pk, k ∈ colNames df) :
    (check_primary_key df pk = [] ↔ dupFirstCount (pkRows df pk) = 0) ∧
    (0 < dupFirstCount (pkRows df pk) →
      (check_primary_key df pk).map (fun f => (f.name, f.severity, f.impact)) =
        [("Primary Key Uniqueness", "critical",
          norm (dupFirstCount (pkRows df pk) : ℚ) (max 10 ((nRows df : ℚ) * (2/100))))] ∧
      reportedPkDuplicates df pk = some (dupFirstCount (pkRows df pk) : ℤ)) ∧
    (∀ i, dupFirstB (pkRows df pk) i = true ↔
      ∃ j < i, (pkRows df pk).getD j [] = (pkRows df pk).getD i []) := by
  obtain ⟨k, pk', rfl⟩ := List.exists_cons_of_ne_nil hpk
  refine ⟨?_, ?_, ?_⟩
  · simp only [check_primary_key]
    split
    · next h =>
      constructor
      · intro habs
        exact absurd habs (by simp)
      · intro h0
        omega
    · next h =>
      constructor
      · intro _
        omega
      · intro _
        rfl
  · intro hd
    refine ⟨?_, ?_⟩
    · simp only [check_primary_key]
      rw [if_pos hd]
      rfl
    · simp only [reportedPkDuplicates, check_primary_key]
      rw [if_pos hd]
      simp [lookupKey, getIntIV]
  · intro i
    simp only [dupFirstB, List.any_eq_true, List.mem_range, decide_eq_true_eq]

/-- Witness for C3 (amended): on a frame with key values [1, 1, 2] the
hypotheses hold, the non-first duplicate count is 1, and the finding
reports exactly that count. -/
theorem claim_C3_amended_witness :
    ((["id"] : List String) ≠ []) ∧ (∀ k ∈ (["id"] : List String), k ∈ colNames dfPkTriple) ∧
    0 < dupFirstCount (pkRows dfPkTriple ["id"]) ∧
    reportedPkDuplicates dfPkTriple ["id"] = some (dupFirstCount (pkRows dfPkTriple ["id"]) : ℤ) :=
  ⟨by decide, by decide, by decide,
    ((claim_C3_amended dfPkTriple ["id"] (by decide) (by decide)).2.1 (by decide)).2⟩

/-- C7: for every candidate date column (name containing "date"
case-insensitively, or datetime dtype), a Finding named
"Invalid Dates: column" is emitted iff the number of values failing
timestamp coercion is positive, and that finding carries severity minor,
impact normalize(invalid, max(10, 5% of rows)) and the exact invalid
count. -/
theorem claim_C7_dates (pdate : String → Option ℤ) (df : DataFrame)
    (hnodup : (colNames df).Nodup) (col : Column) (hcol : col ∈ df.cols)
    (hcand : isDateCandidate col = true) :
    ((("Invalid Dates: " ++ col.name) ∈ (check_dates pdate df).map (fun f => f.name)) ↔
      0 < invalidCount pdate col) ∧
    (∀ f ∈ check_dates pdate df, f.name = "Invalid Dates: " ++ col.name →
      f.severity = "minor" ∧
      f.impact = norm (invalidCount pdate col : ℚ) (max 10 ((nRows df : ℚ) * (5/100))) ∧
      f.issues = [[("invalid", IVal.int (invalidCount pdate col : ℤ))]]) := by
  have hinj : ∀ col' ∈ df.cols, col'.name = col.name → col' = col := by
    intro col' hc' hn
    unfold colNames at hnodup
    exact List.inj_on_of_nodup_map hnodup hc' hcol hn
  have hmem : ∀ f ∈ check_dates pdate df, f.name = "Invalid Dates: " ++ col.name →
      (f = ⟨"Invalid Dates: " ++ col.name, "minor",
        [[("invalid", IVal.int (invalidCount pdate col : ℤ))]],
        norm (invalidCount pdate col : ℚ) (max 10 ((nRows df : ℚ) * (5/100)))⟩ ∧
      0 < invalidCount pdate col) := by
    intro f hf hname
    simp only [check_dates, List.mem_append] at hf
    rcases hf with hf | hf
    · obtain ⟨col', hc', h⟩ := List.mem_filterMap.mp hf
      have hc'' : col' ∈ df.cols := (List.mem_filter.mp hc').1
      split at h
      · next hpos =>
        injection h with h
        subst h
        simp only at hname
        have hceq : col' = col := hinj col' hc'' (invalid_dates_name_inj hname)
        subst hceq
        exact ⟨rfl, hpos⟩
      · cases h
    · exfalso
      split at hf
      · split at hf
        · have hn := congrArg CheckResult.name (List.mem_singleton.mp hf)
          rw [hname] at hn
          exact invalid_dates_ne_temporal col.name hn
        · cases hf
      · cases hf
  constructor
  · constructor
    · intro hn
      obtain ⟨f, hf, hfn⟩ := List.mem_map.mp hn
      exact (hmem f hf hfn).2
    · intro hpos
      apply List.mem_map.mpr
      refine ⟨⟨"Invalid Dates: " ++ col.name, "minor",
        [[("invalid", IVal.int (invalidCount pdate col : ℤ))]],
        norm (invalidCount pdate col : ℚ) (max 10 ((nRows df : ℚ) * (5/100)))⟩, ?_, rfl⟩
      simp only [check_dates, List.mem_append]
      left
      apply List.mem_filterMap.mpr
      exact ⟨col, List.mem_filter.mpr ⟨hcol, hcand⟩, by rw [if_pos hpos]⟩
  · intro f hf hname
    rw [(hmem f hf hname).1]
    exact ⟨rfl, rfl, rfl⟩

/-- Witness for C7: a text column named "start_date" whose two values
both fail coercion yields the invalid-dates finding. -/
theorem claim_C7_dates_witness :
    (colNames dfDates).Nodup ∧
    (("Invalid Dates: " ++ "start_date") ∈ (check_dates pdNone dfDates).map (fun f => f.name)) :=
  ⟨by decide,
    (claim_C7_dates pdNone dfDates (by decide) ⟨"start_date", DType.object,
      [Cell.str "notadate", Cell.str "alsobad"]⟩ (List.mem_singleton.mpr rfl)
      (by decide)).1.mpr (by decide)⟩

theorem additivePair_refl (f : CheckResult) : additivePair f f := by
  refine ⟨rfl, rfl, rfl, fun _ => rfl, rfl, rfl, ?_⟩
  intro rec h1 rec' h2 k _
  rw [Option.mem_def] at h1 h2
  rw [h1] at h2
  injection h2 with h2
  rw [h2]

theorem additivePair_trans {f g f' : CheckResult}
    (h1 : additivePair f g) (h2 : additivePair g f') : additivePair f f' := by
  obtain ⟨n1, s1, i1, u1, l1, t1, k1⟩ := h1
  obtain ⟨n2, s2, i2, u2, l2, t2, k2⟩ := h2
  refine ⟨n2.trans n1, s2.trans s1, i2.trans i1, ?_, l2.trans l1, t2.trans t1, ?_⟩
  · intro hu
    have hg : g = f := u1 hu
    subst hg
    exact u2 hu
  · intro rec hrec rec' hrec' k hk
    have hk' : k ∉ enrichKeysFor g.name := by
      rw [n1]
      exact hk
    rcases hg : g.issues.head? with _ | recg
    · -- g has no issues, hence neither does f by the length equality
      rw [Option.mem_def] at hrec
      rw [List.head?_eq_none_iff] at hg
      have : f.issues = [] := by
        have := l1
        rw [hg] at this
        exact List.length_eq_zero.mp this.symm
      rw [this] at hrec
      cases hrec
    · have hgf := k1 rec hrec recg (by rw [Option.mem_def, hg])
      have hgf' := k2 recg (by rw [Option.mem_def, hg]) rec' hrec'
      rw [hgf' k hk', hgf k hk]

theorem lookupKey_setKey_ne (rec : IssueRec) (k0 k : String) (v : IVal) (h : k ≠ k0) :
    lookupKey (setKey rec k0 v) k = lookupKey rec k := by
  have hb : ((k0, v).1 == k) = false := by
    simp only [beq_eq_false_iff_ne, ne_eq]
    exact fun he => h he.symm
  induction rec with
  | nil =>
    simp [setKey, lookupKey, List.find?, hb]
  | cons p rest ih =>
    simp only [setKey]
    split
    · next hp =>
      have hpb : (p.1 == k) = false := by
        simp only [beq_eq_false_iff_ne, ne_eq, hp]
        exact fun he => h he.symm
      simp [lookupKey, List.find?, hb, hpb]
    · simp only [lookupKey, List.find?] at ih ⊢
      rcases hpk : (p.1 == k) with _ | _
      · simpa [hpk] using ih
      · simp [hpk]

theorem enrichDup_pair (df : DataFrame) (r : CheckResult)
    (hname : r.name = "Duplicate Rows") :
    additivePair r ⟨r.name, r.severity, enrichDupIssues df r.issues, r.impact⟩ := by
  refine ⟨rfl, rfl, rfl, ?_, ?_, ?_, ?_⟩
  · intro hu
    exact absurd hname hu.1
  · cases r.issues <;> rfl
  · cases r.issues <;> rfl
  · intro rec h1 rec' h2 k hk
    rw [hname] at hk
    rw [show enrichKeysFor "Duplicate Rows" = ["row_indices", "sample_rows", "columns"] from rfl] at hk
    simp only [List.mem_cons, List.not_mem_nil, or_false, not_or] at hk
    obtain ⟨hk1, hk2, hk3⟩ := hk
    rcases hiss : r.issues with _ | ⟨rec0, rest⟩
    · rw [Option.mem_def, hiss] at h1
      cases h1
    · rw [Option.mem_def, hiss] at h1
      injection h1 with h1
      subst h1
      rw [Option.mem_def, hiss] at h2
      simp only [enrichDupIssues, List.head?_cons, Option.some.injEq] at h2
      subst h2
      rw [lookupKey_setKey_ne _ _ _ _ hk3, lookupKey_setKey_ne _ _ _ _ hk2,
        lookupKey_setKey_ne _ _ _ _ hk1]

theorem enrichDupList_forall (df : DataFrame) (rs : List CheckResult) :
    List.Forall₂ additivePair rs (enrichDupList df rs) := by
  induction rs with
  | nil => exact List.Forall₂.nil
  | cons r rest ih =>
    simp only [enrichDupList]
    split
    · next hc =>
      simp only [Bool.and_eq_true, beq_iff_eq] at hc
      exact List.Forall₂.cons (enrichDup_pair df r hc.1)
        (List.forall₂_same.mpr fun f _ => additivePair_refl f)
    · exact List.Forall₂.cons (additivePair_refl r) ih

theorem enrichDupStage_forall (df : DataFrame) (rs : List CheckResult) :
    List.Forall₂ additivePair rs (enrichDupStage df rs) := by
  unfold enrichDupStage
  split
  · exact List.forall₂_same.mpr fun f _ => additivePair_refl f
  · exact enrichDupList_forall df rs

theorem enrichIQROne_pair (pnum : String → Option ℚ) (df : DataFrame)
    (r r' : CheckResult) (h : enrichIQROne pnum df r = some r') : additivePair r r' := by
  simp only [enrichIQROne] at h
  split at h
  · next hstart =>
    split at h
    · injection h with h
      subst h
      exact additivePair_refl r
    · split at h
      · split at h
        · injection h with h
          subst h
          exact additivePair_refl r
        · next info rest heq =>
          split at h
          · next lo hi hlo hhi =>
            injection h with h
            subst h
            have hnd : r.name ≠ "Duplicate Rows" := by
              intro he
              rw [he] at hstart
              exact absurd hstart (by decide)
            refine ⟨rfl, rfl, rfl, ?_, ?_, ?_, ?_⟩
            · intro hu
              rw [hstart] at hu
              exact absurd hu.2 (by decide)
            · rw [heq]
              rfl
            · rw [heq]
              rfl
            · intro rec h1 rec' h2 k hk
              simp only [enrichKeysFor, if_neg hnd, if_pos hstart, List.mem_cons,
                List.mem_singleton, not_or] at hk
              obtain ⟨hk1, hk2, hk3, hk4, _⟩ := hk
              rw [Option.mem_def, heq] at h1
              injection h1 with h1
              subst h1
              rw [Option.mem_def] at h2
              simp only [List.head?_cons, Option.some.injEq] at h2
              subst h2
              rw [lookupKey_setKey_ne _ _ _ _ hk4, lookupKey_setKey_ne _ _ _ _ hk3,
                lookupKey_setKey_ne _ _ _ _ hk2, lookupKey_setKey_ne _ _ _ _ hk1]
          · cases h
      · injection h with h
        subst h
        exact additivePair_refl r
  · injection h with h
    subst h
    exact additivePair_refl r

theorem mapM_enrichIQR_forall (pnum : String → Option ℚ) (df : DataFrame) :
    ∀ (l l' : List CheckResult), l.mapM (enrichIQROne pnum df) = some l' →
      List.Forall₂ additivePair l l' := by
  intro l
  induction l with
  | nil =>
    intro l' h
    simp only [List.mapM_nil, Option.pure_def, Option.some.injEq] at h
    subst h
    exact List.Forall₂.nil
  | cons a t ih =>
    intro l' h
    rw [List.mapM_cons] at h
    simp only [Option.pure_def, Option.bind_eq_bind, Option.bind_eq_some,
      Option.some.injEq] at h
    obtain ⟨b, hb, ts, hts, rfl⟩ := h
    exact List.Forall₂.cons (enrichIQROne_pair pnum df a b hb) (ih ts hts)

theorem forall₂_trans_of_trans {α : Type} {R : α → α → Prop}
    (ht : ∀ a b c, R a b → R b c → R a c) :
    ∀ {l₁ l₂ l₃ : List α}, List.Forall₂ R l₁ l₂ → List.Forall₂ R l₂ l₃ →
      List.Forall₂ R l₁ l₃ := by
  intro l₁ l₂ l₃ h12
  induction h12 generalizing l₃ with
  | nil =>
    intro h23
    cases h23
    exact List.Forall₂.nil
  | cons hab h ih =>
    intro h23
    cases h23 with
    | cons hbc h' => exact List.Forall₂.cons (ht _ _ _ hab hbc) (ih h')

/-- C9: whenever the Enrichment Stage completes, it relates the input and
output finding lists pointwise; each finding keeps its name, severity and
impact, findings that are neither "Duplicate Rows" nor "IQR Outliers: …"
are untouched, and on the affected findings only the designated evidence
keys of the first issue record are set — every other key and every other
issue record is unchanged. -/
theorem claim_C9_enrichment_additive (pnum : String → Option ℚ) (df : DataFrame)
    (rs rs' : List CheckResult) (h : enrichAll pnum df rs = some rs') :
    List.Forall₂ additivePair rs rs' := by
  unfold enrichAll at h
  refine forall₂_trans_of_trans ?_ (enrichDupStage_forall df rs)
    (mapM_enrichIQR_forall pnum df _ rs' h)
  intro a b c hab hbc
  exact additivePair_trans hab hbc

/-- Witness for C9: the stage runs to completion on a concrete frame with
a duplicate row and findings exercising both enrichment branches. -/
theorem claim_C9_enrichment_additive_witness :
    List.Forall₂ additivePair rsEnrich ((enrichAll pnNone dfDup rsEnrich).getD []) :=
  claim_C9_enrichment_additive pnNone dfDup rsEnrich _ rfl

theorem countP_lt_of_witness {α : Type} (p q : α → Bool) (x : α)
    (hqx : q x = true) (hpx : p x = false) :
    ∀ l : List α, (∀ a ∈ l, p a = true → q a = true) → x ∈ l →
      l.countP p < l.countP q := by
  intro l
  induction l with
  | nil =>
    intro _ hx
    cases hx
  | cons a t ih =>
    intro hpq hx
    rw [List.countP_cons, List.countP_cons]
    rcases List.mem_cons.mp hx with rfl | hx'
    · have h1 : t.countP p ≤ t.countP q :=
        List.countP_mono_left (fun b hb hpb => hpq b (List.mem_cons_of_mem _ hb) hpb)
      rw [hpx, hqx]
      simp only [Bool.false_eq_true, if_false, if_true]
      omega
    · have h1 := ih (fun b hb hpb => hpq b (List.mem_cons_of_mem _ hb) hpb) hx'
      have h2 : (if p a = true then 1 else 0) ≤ (if q a = true then 1 else 0) := by
        by_cases hpa : p a = true
        · rw [if_pos hpa, if_pos (hpq a (List.mem_cons_self a t) hpa)]
        · rw [if_neg hpa]
          split <;> omega
      omega

theorem dupAnyB_iff (rows : List (List Cell)) (i : ℕ) :
    dupAnyB rows i = true ↔
      ∃ j, j < rows.length ∧ j ≠ i ∧ rows.getD j [] = rows.getD i [] := by
  simp only [dupAnyB, List.any_eq_true, List.mem_range, Bool.and_eq_true,
    Bool.not_eq_true', beq_eq_false_iff_ne, ne_eq, decide_eq_true_eq]

theorem dupFirstB_imp_dupAnyB (rows : List (List Cell)) (i : ℕ)
    (hi : i < rows.length) (h : dupFirstB rows i = true) : dupAnyB rows i = true := by
  simp only [dupFirstB, List.any_eq_true, List.mem_range, decide_eq_true_eq] at h
  obtain ⟨j, hj, he⟩ := h
  rw [dupAnyB_iff]
  exact ⟨j, by omega, by omega, he⟩

theorem dupFirst_lt_dupAny (rows : List (List Cell)) (h : 0 < dupFirstCount rows) :
    dupFirstCount rows < (dupAnyIdx rows).length := by
  have hlen : (dupAnyIdx rows).length = (List.range rows.length).countP (dupAnyB rows) := by
    rw [dupAnyIdx, ← List.countP_eq_length_filter]
  rw [dupFirstCount] at h ⊢
  rw [hlen]
  obtain ⟨i, hi, hfi⟩ := List.countP_pos_iff.mp h
  rw [List.mem_range] at hi
  simp only [dupFirstB, List.any_eq_true, List.mem_range, decide_eq_true_eq] at hfi
  obtain ⟨jw, hjw, hew⟩ := hfi
  have hex : ∃ j, rows.getD j [] = rows.getD i [] := ⟨i, rfl⟩
  have hj0 : rows.getD (Nat.find hex) [] = rows.getD i [] := Nat.find_spec hex
  have hj0le : Nat.find hex ≤ jw := Nat.find_min' hex hew
  have hj0i : Nat.find hex < i := lt_of_le_of_lt hj0le hjw
  have hpj0 : dupFirstB rows (Nat.find hex) = false := by
    by_contra hb
    rw [Bool.not_eq_false] at hb
    simp only [dupFirstB, List.any_eq_true, List.mem_range, decide_eq_true_eq] at hb
    obtain ⟨kk, hkk, hek⟩ := hb
    exact Nat.find_min hex hkk (hek.trans hj0)
  have hqj0 : dupAnyB rows (Nat.find hex) = true := by
    rw [dupAnyB_iff]
    exact ⟨i, hi, by omega, hj0.symm⟩
  exact countP_lt_of_witness (dupFirstB rows) (dupAnyB rows) (Nat.find hex) hqj0 hpj0
    (List.range rows.length)
    (fun a ha hpa => dupFirstB_imp_dupAnyB rows a (List.mem_range.mp ha) hpa)
    (List.mem_range.mpr (by omega))

theorem enrichIQROne_of_not_starts (pnum : String → Option ℚ) (df : DataFrame)
    (r : CheckResult) (h : strStarts r.name "IQR Outliers" = false) :
    enrichIQROne pnum df r = some r := by
  simp only [enrichIQROne, h]
  rfl

theorem mapM_id_of_forall (pnum : String → Option ℚ) (df : DataFrame) :
    ∀ l : List CheckResult, (∀ g ∈ l, enrichIQROne pnum df g = some g) →
      l.mapM (enrichIQROne pnum df) = some l := by
  intro l
  induction l with
  | nil =>
    intro _
    rfl
  | cons a t ih =>
    intro hall
    rw [List.mapM_cons, hall a (List.mem_cons_self a t),
      ih (fun g hg => hall g (List.mem_cons_of_mem a hg))]
    rfl

theorem enrichDupList_pipeline (df : DataFrame) (r : CheckResult)
    (hr : r.name = "Duplicate Rows") (hiss : r.issues ≠ []) :
    ∀ pre : List CheckResult, (∀ g ∈ pre, (g.name == "Duplicate Rows") = false) →
      enrichDupList df (pre ++ [r]) =
        pre ++ [⟨r.name, r.severity, enrichDupIssues df r.issues, r.impact⟩] := by
  intro pre
  induction pre with
  | nil =>
    intro _
    have hc : (r.name == "Duplicate Rows" && !r.issues.isEmpty) = true := by
      rw [hr]
      rcases hi : r.issues with _ | ⟨a, t⟩
      · exact absurd hi hiss
      · rfl
    simp only [List.nil_append, enrichDupList]
    rw [if_pos hc]
  | cons a t ih =>
    intro hpre
    have ha := hpre a (List.mem_cons_self a t)
    have hc : (a.name == "Duplicate Rows" && !a.issues.isEmpty) = false := by
      rw [ha]
      rfl
    simp only [List.cons_append, enrichDupList]
    rw [if_neg (by rw [hc]; exact Bool.false_ne_true)]
    simp only [List.append_eq]
    rw [ih (fun g hg => hpre g (List.mem_cons_of_mem a hg))]

theorem enrichAll_dup_pipeline (pnum : String → Option ℚ) (df : DataFrame)
    (r : CheckResult) (hr : r.name = "Duplicate Rows") (hiss : r.issues ≠ [])
    (hne : (dupAnyIdx (dfRows df)).isEmpty = false) (pre : List CheckResult)
    (hpre : ∀ g ∈ pre,
      (g.name == "Duplicate Rows") = false ∧ strStarts g.name "IQR Outliers" = false) :
    enrichAll pnum df (pre ++ [r]) =
      some (pre ++ [⟨r.name, r.severity, enrichDupIssues df r.issues, r.impact⟩]) := by
  unfold enrichAll enrichDupStage
  rw [if_neg (by rw [hne]; exact Bool.false_ne_true)]
  rw [enrichDupList_pipeline df r hr hiss pre (fun g hg => (hpre g hg).1)]
  apply mapM_id_of_forall
  intro g hg
  rcases List.mem_append.mp hg with hg | hg
  · exact enrichIQROne_of_not_starts pnum df g (hpre g hg).2
  · rw [List.mem_singleton] at hg
    subst hg
    apply enrichIQROne_of_not_starts
    show strStarts r.name "IQR Outliers" = false
    rw [hr]
    decide

/-- C10: on every dataset with at least one exact duplicate row, the
enriched "Duplicate Rows" finding reports the keep-first duplicate count
(excluding each group's first occurrence) while its row_indices list all
rows that coincide with any other row (each group's first row included),
so the row_indices list is strictly longer than the duplicates count. -/
theorem claim_C10_duplicates (pnum : String → Option ℚ) (df : DataFrame)
    (h : 0 < dupFirstCount (dfRows df)) :
    (∃ rs', enrichAll pnum df (check_missing_duplicates_types df) = some rs' ∧
      ∃ f ∈ rs', f.name = "Duplicate Rows" ∧
        ∃ rec ∈ f.issues.head?,
          lookupKey rec "duplicates" = some (IVal.int (dupFirstCount (dfRows df) : ℤ)) ∧
          lookupKey rec "row_indices" =
            some (IVal.list ((dupAnyIdx (dfRows df)).map (fun n => IVal.int (n : ℤ))))) ∧
    (∀ i, i ∈ dupAnyIdx (dfRows df) ↔ i < (dfRows df).length ∧
      ∃ j, j < (dfRows df).length ∧ j ≠ i ∧ (dfRows df).getD j [] = (dfRows df).getD i []) ∧
    dupFirstCount (dfRows df) < (dupAnyIdx (dfRows df)).length := by
  have hlt := dupFirst_lt_dupAny (dfRows df) h
  have hne : (dupAnyIdx (dfRows df)).isEmpty = false := by
    rcases he : dupAnyIdx (dfRows df) with _ | ⟨a, t⟩
    · exfalso
      rw [he] at hlt
      simp at hlt
    · rfl
  refine ⟨?_, ?_, hlt⟩
  · have hstep : ∀ pre : List CheckResult,
        (∀ g ∈ pre, (g.name == "Duplicate Rows") = false ∧
          strStarts g.name "IQR Outliers" = false) →
        check_missing_duplicates_types df = pre ++ [dupFindingOf df] →
        ∃ rs', enrichAll pnum df (check_missing_duplicates_types df) = some rs' ∧
          ∃ f ∈ rs', f.name = "Duplicate Rows" ∧
            ∃ rec ∈ f.issues.head?,
              lookupKey rec "duplicates" = some (IVal.int (dupFirstCount (dfRows df) : ℤ)) ∧
              lookupKey rec "row_indices" =
                some (IVal.list ((dupAnyIdx (dfRows df)).map (fun n => IVal.int (n : ℤ)))) := by
      intro pre hpre hrepr
      rw [hrepr]
      rw [enrichAll_dup_pipeline pnum df (dupFindingOf df) rfl
        (List.cons_ne_nil _ _) hne pre hpre]
      refine ⟨_, rfl, ?_⟩
      refine ⟨⟨(dupFindingOf df).name, (dupFindingOf df).severity,
        enrichDupIssues df (dupFindingOf df).issues, (dupFindingOf df).impact⟩,
        List.mem_append_right pre (List.mem_singleton.mpr rfl), rfl, ?_⟩
      exact ⟨_, rfl, rfl, rfl⟩
    by_cases hm : (df.cols.filter (fun col => decide (0 < missingCount col))).isEmpty
    · apply hstep []
      · intro g hg
        cases hg
      · simp only [check_missing_duplicates_types]
        rw [if_pos hm, if_pos h]
        rfl
    · apply hstep [⟨"Missing Values", "major",
        (df.cols.filter (fun col => decide (0 < missingCount col))).map (fun col =>
          [("column", IVal.str col.name), ("missing", IVal.int (missingCount col : ℤ))]),
        norm (((df.cols.filter (fun col => decide (0 < missingCount col))).map missingCount).sum : ℚ)
          (max 10 ((nRows df : ℚ) * (5/100)))⟩]
      · intro g hg
        rw [List.mem_singleton] at hg
        subst hg
        exact ⟨(by decide : (("Missing Values" : String) == "Duplicate Rows") = false),
          (by decide : strStarts ("Missing Values") ("IQR Outliers") = false)⟩
      · simp only [check_missing_duplicates_types]
        rw [if_neg hm, if_pos h]
        rfl
  · intro i
    simp only [dupAnyIdx, List.mem_filter, List.mem_range]
    constructor
    · rintro ⟨hi, hb⟩
      exact ⟨hi, (dupAnyB_iff _ _).mp hb⟩
    · rintro ⟨hi, hb⟩
      exact ⟨hi, (dupAnyB_iff _ _).mpr hb⟩

/-- Witness for C10: on a frame with rows [1], [1], [2] the duplicate
count (keep-first) is 1 while two rows belong to duplicate groups. -/
theorem claim_C10_duplicates_witness :
    0 < dupFirstCount (dfRows dfDup) ∧
    dupFirstCount (dfRows dfDup) < (dupAnyIdx (dfRows dfDup)).length :=
  ⟨by decide, (claim_C10_duplicates pnNone dfDup (by decide)).2.2⟩
